import Mathlib

/-!
Verification of the DeepScene steganography core against its specification.

The development shallowly embeds the Rust sources (`src/core/steganography.rs`,
`src/core/compression.rs`, `src/core/crypto.rs`, `src/processor/mod.rs`).
Bytes are `Nat` values kept below 256 by the stated hypotheses, machine
arithmetic is `Nat` with explicit `% 2 ^ w` where the source can wrap, and
fallible operations return `Except DeepSceneError`.  External libraries
(the deflate codec, Argon2, ChaCha20, blake3) are modelled as parameters of
the pipeline, collected in the `Externals` structure; only the properties the
source relies on (e.g. that XOR-ing the same keystream twice is the identity,
which holds for every keystream) are used.
-/

namespace DeepScene

/-- `MAX_IMAGE_DIMENSION` from `steganography.rs`. -/
def MAX_IMAGE_DIMENSION : Nat := 20000

/-- `MAX_DATA_LENGTH` from `steganography.rs` (256 MiB). -/
def MAX_DATA_LENGTH : Nat := 256 * 1024 * 1024

/-- `HEADER_MAGIC = b"DPSN"` from `steganography.rs`. -/
def HEADER_MAGIC : List Nat := [68, 80, 83, 78]

/-- The error enum of `src/core/error.rs`; the `Io` payload is reduced to a
message, everything else carries its message string as in the source. -/
inductive DeepSceneError where
  | Io : String → DeepSceneError
  | Image : String → DeepSceneError
  | Encryption : String → DeepSceneError
  | Compression : String → DeepSceneError
  | Validation : String → DeepSceneError
  | Data : String → DeepSceneError
deriving DecidableEq, Repr

/-- Whether an error is the `Encryption` kind. -/
def DeepSceneError.isEncryption : DeepSceneError → Bool
  | .Encryption _ => true
  | _ => false

/-- Whether an error is the `Validation` kind. -/
def DeepSceneError.isValidation : DeepSceneError → Bool
  | .Validation _ => true
  | _ => false

/-- Whether an error is the `Data` kind. -/
def DeepSceneError.isData : DeepSceneError → Bool
  | .Data _ => true
  | _ => false

/-- Big-endian byte list of a `u32` (`u32::to_be_bytes`). -/
def u32BeBytes (n : Nat) : List Nat :=
  [n / 2 ^ 24 % 256, n / 2 ^ 16 % 256, n / 2 ^ 8 % 256, n % 256]

/-- Big-endian byte list of a `u16` (`u16::to_be_bytes`). -/
def u16BeBytes (n : Nat) : List Nat := [n / 2 ^ 8 % 256, n % 256]

/-- `u16::from_be_bytes([hi, lo])` for byte-sized inputs. -/
def u16FromBe (hi lo : Nat) : Nat := hi * 256 + lo

/-- `u32::from_be_bytes([b0, b1, b2, b3])` for byte-sized inputs. -/
def u32FromBe (b0 b1 b2 b3 : Nat) : Nat := ((b0 * 256 + b1) * 256 + b2) * 256 + b3

/-- The external collaborators of the core pipeline.  `deflate`/`inflate`
model the flate2 codec (`inflate` returns `none` on a malformed stream),
`argonKey` models Argon2 key derivation (password bytes and 16-byte salt to
32-byte key), `keystream` models the ChaCha20 keystream for a key and nonce
(byte index to keystream byte), `hash` models blake3 (32-byte digest), and
`validUtf8` models `String::from_utf8` succeeding. -/
structure Externals where
  deflate : List Nat → List Nat
  inflate : List Nat → Option (List Nat)
  argonKey : List Nat → List Nat → List Nat
  keystream : List Nat → List Nat → Nat → Nat
  hash : List Nat → List Nat
  validUtf8 : List Nat → Bool

/-! ## Compression engine (`src/core/compression.rs`) -/

/-- The comparison threshold of `CompressionEngine::compress`.  The source
computes `(original_size as f64 * 0.95) as usize`.  For every feasible length
`n` (certainly all `n < 2 ^ 49`) that floating-point expression equals
`19 * n / 20` in natural division: when `0.95 * n` is not an integer its
fractional part is at least `1 / 20`, far above the rounding error of the
single f64 multiplication, so truncation yields `⌊0.95 * n⌋`; and when
`20 ∣ n` the product `n * 0.95f64` (whose exact value is `19 * n / 20 - n / 2 ^ 50.4…`)
rounds back up to the integer `19 * n / 20`, since that integer is within half
an ulp.  The embedding therefore uses the exact natural-number form. -/
def compressThreshold (n : Nat) : Nat := 19 * n / 20

/-- `CompressionEngine::compress`, with the deflate codec supplied by `E`.
Returns the output bytes and the `applied` flag. -/
def compress (E : Externals) (data : List Nat) : List Nat × Bool :=
  let compressed := E.deflate data
  if compressed.length < compressThreshold data.length then (compressed, true)
  else (data, false)

/-- `CompressionEngine::decompress`: a malformed stream is a `Compression`
error. -/
def decompress (E : Externals) (data : List Nat) : Except DeepSceneError (List Nat) :=
  match E.inflate data with
  | some result => .ok result
  | none => .error (.Compression "Failed to decompress data")

/-! ## Crypto engine (`src/core/crypto.rs`) -/

/-- `cipher.apply_keystream` starting at byte offset `i`: XOR every buffer
byte with the corresponding keystream byte. -/
def xorKeystream (ks : Nat → Nat) : Nat → List Nat → List Nat
  | _, [] => []
  | i, b :: rest => (b ^^^ ks i % 256) :: xorKeystream ks (i + 1) rest

/-- `CryptoEngine::encrypt`.  The randomly generated 16-byte salt and 12-byte
nonce are passed as parameters (the source draws them from a CSPRNG); the
password is its UTF-8 byte list. -/
def encrypt (E : Externals) (salt nonce data pwd : List Nat) :
    Except DeepSceneError (List Nat) :=
  if pwd = [] then
    .error (.Validation
      "Encryption password cannot be empty. Please provide a valid password")
  else
    let key := E.argonKey pwd salt
    let checksumBytes := (E.hash data).take 16
    let dataWithChecksum := checksumBytes ++ data
    let encrypted := xorKeystream (E.keystream key nonce) 0 dataWithChecksum
    .ok (salt ++ nonce ++ encrypted)

/-- `CryptoEngine::decrypt`. -/
def decrypt (E : Externals) (data pwd : List Nat) :
    Except DeepSceneError (List Nat) :=
  if pwd = [] then
    .error (.Validation
      "Encryption password cannot be empty. Please provide a valid password")
  else if data.length < 16 + 12 + 16 then
    .error (.Encryption "Corrupted encrypted data")
  else
    let salt := data.take 16
    let nonce := (data.drop 16).take 12
    let encrypted := data.drop 28
    let key := E.argonKey pwd salt
    let decrypted := xorKeystream (E.keystream key nonce) 0 encrypted
    if decrypted.length < 16 then
      .error (.Encryption "Authentication failed")
    else
      let storedChecksum := decrypted.take 16
      let actualData := decrypted.drop 16
      if storedChecksum ≠ (E.hash actualData).take 16 then
        .error (.Encryption "Authentication failed")
      else
        .ok actualData

/-- Modelled from the claim: `decrypt` with the `decrypted.len() < 16`
authentication-failure branch removed, used to state that the branch is
unreachable once the minimum-length check has passed. -/
def decryptNoLengthGuard (E : Externals) (data pwd : List Nat) :
    Except DeepSceneError (List Nat) :=
  if pwd = [] then
    .error (.Validation
      "Encryption password cannot be empty. Please provide a valid password")
  else if data.length < 16 + 12 + 16 then
    .error (.Encryption "Corrupted encrypted data")
  else
    let salt := data.take 16
    let nonce := (data.drop 16).take 12
    let encrypted := data.drop 28
    let key := E.argonKey pwd salt
    let decrypted := xorKeystream (E.keystream key nonce) 0 encrypted
    let storedChecksum := decrypted.take 16
    let actualData := decrypted.drop 16
    if storedChecksum ≠ (E.hash actualData).take 16 then
      .error (.Encryption "Authentication failed")
    else
      .ok actualData

/-! ## Steganographic codec (`src/core/steganography.rs`)

A carrier image is embedded as its row-major pixel list (this is exactly the
layout of the `RgbaImage` buffer: pixel `(x, y)` sits at list index
`y * width + x`), each pixel being its list of channel bytes
`[r, g, b, a]`. -/

/-- `SteganographyEngine::calculate_capacity`.  The source multiplies in
`u64`; the two `u32` factors multiply exactly, the `* 3` can wrap, hence the
explicit `% 2 ^ 64`. -/
def calculate_capacity (width height : Nat) : Nat :=
  width * height * 3 % 2 ^ 64 / 8

/-- `SteganographyEngine::calculate_header_checksum`: wrapping `u16` sum of
the bytes. -/
def calculate_header_checksum (data : List Nat) : Nat :=
  data.foldl (fun acc b => (acc + b) % 2 ^ 16) 0

/-- The 10-byte stego header built inside `embed_data`: magic, big-endian
`u32` length (`data.len() as u32` wraps), big-endian `u16` checksum of the
first 8 bytes. -/
def buildHeader (len : Nat) : List Nat :=
  let headerBase := HEADER_MAGIC ++ u32BeBytes (len % 2 ^ 32)
  headerBase ++ u16BeBytes (calculate_header_checksum headerBase)

/-- Bit `k` of a byte list, most-significant bit of each byte first: the
source expression `(all_data[bit_index / 8] >> (7 - bit_index % 8)) & 1`. -/
def bitAt (data : List Nat) (k : Nat) : Nat :=
  (data.getD (k / 8) 0 >>> (7 - k % 8)) &&& 1

/-- `(pixel[channel] & 0xFE) | bit` — write `bit` into the channel's
least-significant bit. -/
def setLsb (v bit : Nat) : Nat := (v &&& 254) ||| bit

/-- Map with the element's index, starting at `start`. -/
def mapWithIdx (f : Nat → α → β) : Nat → List α → List β
  | _, [] => []
  | i, a :: rest => f i a :: mapWithIdx f (i + 1) rest

/-- `SteganographyEngine::embed_data`.  The source walks pixels in row-major
order and channels 0,1,2 of each pixel, keeping a running `bit_index` that it
increments once per visited channel and breaking out once
`bit_index ≥ all_data.len() * 8`; so the bit written at pixel `i`, channel
`c` is bit `3 * i + c`, and every channel at or past the total bit count
(including the whole alpha channel, index 3) is left unchanged. -/
def embed_data (image : List (List Nat)) (data : List Nat) : List (List Nat) :=
  let allData := buildHeader data.length ++ data
  let totalBits := allData.length * 8
  mapWithIdx
    (fun i px =>
      mapWithIdx
        (fun c v =>
          if c < 3 ∧ 3 * i + c < totalBits then setLsb v (bitAt allData (3 * i + c))
          else v)
        0 px)
    0 image

/-- The dimension-validation steps of `SteganographyEngine::validate_image`
that act on the decoded dimensions (the path/IO checks are outside the
model). -/
def validateDimensions (width height : Nat) : Except DeepSceneError Unit :=
  if width = 0 ∨ height = 0 then
    .error (.Validation "Image has invalid dimensions")
  else if MAX_IMAGE_DIMENSION < width ∨ MAX_IMAGE_DIMENSION < height then
    .error (.Validation ("Image dimensions too large (" ++ toString width ++ "x"
      ++ toString height ++ "). Maximum is 20000x20000 pixels"))
  else
    .ok ()

/-- Ceiling of `a / b` on naturals. -/
def ceilDiv (a b : Nat) : Nat := (a + b - 1) / b

/-- Ceiling of the square root. -/
def ceilSqrt (n : Nat) : Nat :=
  if Nat.sqrt n * Nat.sqrt n = n then Nat.sqrt n else Nat.sqrt n + 1

/-- The suggested minimum square dimension computed in `hide_data`:
`min_pixels_needed = ((required * 8) as f64 / 3.0).ceil()` and
`min_dimension = (min_pixels_needed as f64).sqrt().ceil()`.  Both f64 steps
are exact for every feasible `required` (`required * 8 < 2 ^ 53`; IEEE
division and square root are correctly rounded, and the true results are
never close enough to an integer for rounding to cross one), so the
embedding uses the exact natural-number ceilings. -/
def minDimension (required : Nat) : Nat := ceilSqrt (ceilDiv (required * 8) 3)

/-- The `Validation` error text produced by the capacity check of
`hide_data`. -/
def capacityErrorMsg (maxDataSize dataLen minDim : Nat) : String :=
  "Data too large for image. Image can hold " ++ toString maxDataSize
    ++ " bytes, but " ++ toString dataLen
    ++ " bytes needed. Try using an image at least " ++ toString minDim
    ++ "x" ++ toString minDim ++ " pixels."

/-- `SteganographyEngine::hide_data` on the decoded carrier: dimension
validation, the capacity check (`max_bytes.saturating_sub 10` is plain `Nat`
subtraction), then `embed_data`.  The path/IO work around it is outside the
model. -/
def hide_data (width height : Nat) (image : List (List Nat)) (data : List Nat) :
    Except DeepSceneError (List (List Nat)) := do
  validateDimensions width height
  let maxBytes := calculate_capacity width height
  let requiredBytes := data.length + 10
  if maxBytes < requiredBytes then
    .error (.Validation
      (capacityErrorMsg (maxBytes - 10) data.length (minDimension requiredBytes)))
  else
    .ok (embed_data image data)

/-- The row-major R,G,B least-significant-bit stream of an image: the
`all_bits` vector collected by `extract_data` before it truncates at
`max_bits`. -/
def chanBits : List (List Nat) → List Nat
  | [] => []
  | px :: rest =>
    (px.getD 0 0 &&& 1) :: (px.getD 1 0 &&& 1) :: (px.getD 2 0 &&& 1) :: chanBits rest

/-- One byte packed most-significant-bit first from 8 bits, the source's
`byte = (byte << 1) | bit` loop on a `u8` (the shift drops bit 7, hence the
`% 256`). -/
def packFold (f : Nat → Nat) : Nat :=
  (List.range 8).foldl (fun byte j => (byte <<< 1) % 256 ||| f j) 0

/-- Header byte `i` assembled by `validate_and_extract` from bits
`i * 8 + j`. -/
def headerByteAt (bits : List Nat) (i : Nat) : Nat :=
  packFold fun j => bits.getD (i * 8 + j) 0

/-- Payload byte `i` assembled by `extract_bytes` from bits
`80 + i * 8 + j`, failing on any out-of-range bit index. -/
def extractPayloadByte (bits : List Nat) (i : Nat) : Except DeepSceneError Nat :=
  (List.range 8).foldl
    (fun acc j => do
      let byte ← acc
      if bits.length ≤ 80 + i * 8 + j then
        Except.error (DeepSceneError.Data "Unexpected end of data while extracting")
      else
        pure ((byte <<< 1) % 256 ||| bits.getD (80 + i * 8 + j) 0))
    (Except.ok 0)

/-- `SteganographyEngine::extract_bytes`. -/
def extract_bytes (bits : List Nat) (length : Nat) :
    Except DeepSceneError (List Nat) :=
  (List.range length).foldl
    (fun acc i => do
      let data ← acc
      let byte ← extractPayloadByte bits i
      pure (data ++ [byte]))
    (Except.ok [])

/-- The 10 header bytes parsed by `validate_and_extract` from the first 80
bits. -/
def headerBytes (bits : List Nat) : List Nat :=
  (List.range 10).map (headerByteAt bits)

/-- The stored big-endian `u16` checksum, header bytes 8 and 9. -/
def storedChecksumOf (bits : List Nat) : Nat :=
  u16FromBe ((headerBytes bits).getD 8 0) ((headerBytes bits).getD 9 0)

/-- The checksum recomputed over the first 8 header bytes. -/
def computedChecksumOf (bits : List Nat) : Nat :=
  calculate_header_checksum ((headerBytes bits).take 8)

/-- The big-endian `u32` payload length, header bytes 4 to 7. -/
def dataLengthOf (bits : List Nat) : Nat :=
  u32FromBe ((headerBytes bits).getD 4 0) ((headerBytes bits).getD 5 0)
    ((headerBytes bits).getD 6 0) ((headerBytes bits).getD 7 0)

/-- `SteganographyEngine::validate_and_extract`: parse the 10 header bytes,
then the six validation steps in source order, then `extract_bytes`. -/
def validate_and_extract (bits : List Nat) (width height : Nat) :
    Except DeepSceneError (List Nat) :=
  let header := (List.range 10).map (headerByteAt bits)
  if header.take 4 ≠ HEADER_MAGIC then
    .error (.Data
      "No embedded data detected. This image does not appear to contain steganographic content")
  else
    let storedChecksum := u16FromBe (header.getD 8 0) (header.getD 9 0)
    let computedChecksum := calculate_header_checksum (header.take 8)
    if storedChecksum ≠ computedChecksum then
      .error (.Data "Data integrity check failed. The embedded data may be corrupted")
    else
      let dataLength :=
        u32FromBe (header.getD 4 0) (header.getD 5 0) (header.getD 6 0) (header.getD 7 0)
      if dataLength = 0 then
        .error (.Data "No embedded data detected")
      else if MAX_DATA_LENGTH < dataLength then
        .error (.Data ("Invalid data length detected (" ++ toString dataLength
          ++ " bytes). Maximum is " ++ toString (MAX_DATA_LENGTH / (1024 * 1024)) ++ " MB."))
      else
        let totalBitsNeeded := 80 + dataLength * 8
        let availableBits := width * height * 3
        if availableBits < totalBitsNeeded then
          .error (.Data ("Image capacity exceeded. Required: " ++ toString totalBitsNeeded
            ++ " bits. Available: " ++ toString availableBits ++ " bits"))
        else if bits.length < totalBitsNeeded then
          .error (.Data ("Cannot extract data: need " ++ toString totalBitsNeeded
            ++ " bits but only " ++ toString bits.length ++ " bits available"))
        else
          extract_bytes bits dataLength

/-- `SteganographyEngine::extract_data` on the decoded carrier. -/
def extract_data (width height : Nat) (image : List (List Nat)) :
    Except DeepSceneError (List Nat) := do
  validateDimensions width height
  let maxBits := min (width * height * 3) (80 + MAX_DATA_LENGTH * 8)
  let allBits := (chanBits image).take maxBits
  if allBits.length < 80 then
    .error (.Data "Image dimensions insufficient for data extraction")
  else
    validate_and_extract allBits width height

/-! ## Pipeline orchestrator (`src/processor/mod.rs`)

The pipeline is modelled from the point where the carrier and the file bytes
are in memory: `encodePipeline` maps (carrier pixels, file bytes, file name
bytes, optional password bytes) to the stego pixel buffer, `decodePipeline`
maps the stego pixel buffer back to (file name bytes, file bytes). -/

/-- The outer payload built by `DataProcessor::encode`:
`[name_len as u8] ++ name ++ [encryption_flag] ++ content`, `content` being
the encrypted blob when a password is present and the raw file bytes
otherwise. -/
def buildOuterPayload (E : Externals) (salt nonce fileData fileName : List Nat)
    (password : Option (List Nat)) : Except DeepSceneError (List Nat) := do
  let contents ← match password with
    | some pwd => encrypt E salt nonce fileData pwd
    | none => pure fileData
  pure ([fileName.length % 256] ++ fileName
    ++ [if password.isSome then 1 else 0] ++ contents)

/-- `DataProcessor::encode` from the in-memory file to the stego pixel
buffer: outer payload, compression with its flag byte, `hide_data`. -/
def encodePipeline (E : Externals) (salt nonce : List Nat) (width height : Nat)
    (image : List (List Nat)) (fileData fileName : List Nat)
    (password : Option (List Nat)) : Except DeepSceneError (List (List Nat)) := do
  let payload ← buildOuterPayload E salt nonce fileData fileName password
  let processed := compress E payload
  let finalPayload := (if processed.2 then [1] else [0]) ++ processed.1
  hide_data width height image finalPayload

/-- The decompression stage of `DataProcessor::decode`: strip the compression
flag byte, inflate when it says `1`. -/
def decompressStage (E : Externals) (embedded : List Nat) :
    Except DeepSceneError (List Nat) :=
  if embedded.getD 0 0 = 1 then decompress E (embedded.drop 1)
  else .ok (embedded.drop 1)

/-- `DataProcessor::decode` after extraction: emptiness check, decompression
stage, metadata parsing, the encryption-flag/password consistency checks and
the optional decryption, returning (file name bytes, file bytes). -/
def decodePayload (E : Externals) (embedded : List Nat)
    (password : Option (List Nat)) :
    Except DeepSceneError (List Nat × List Nat) := do
  if embedded = [] then
    throw (.Data "No data found in image")
  let decompressedData ← decompressStage E embedded
  if decompressedData = [] then
    throw (.Data "Processed data is empty")
  let nameLen := decompressedData.getD 0 0
  if nameLen = 0 then
    throw (.Data "Invalid file name length (0)")
  if 255 < nameLen then
    throw (.Data ("Invalid file name length (" ++ toString nameLen
      ++ "). Maximum is 255"))
  if decompressedData.length < 1 + nameLen + 1 then
    throw (.Data "Invalid data structure: missing encryption flag")
  let fileNameBytes := (decompressedData.drop 1).take nameLen
  if E.validUtf8 fileNameBytes = false then
    throw (.Data "Failed to decode file name")
  if fileNameBytes = [] then
    throw (.Data "File name is empty")
  if fileNameBytes.contains 0 then
    throw (.Data "File name contains null bytes")
  let encryptionFlag := decompressedData.getD (1 + nameLen) 0
  let encryptedData := decompressedData.drop (1 + nameLen + 1)
  let fileData ←
    if encryptionFlag = 1 then
      match password with
      | some pwd => decrypt E encryptedData pwd
      | none =>
        throw (.Validation
          "File is password-protected. Please provide the decryption password using -p or --password flag")
    else
      if password.isSome then
        throw (.Validation
          "Password provided for unencrypted file. This file does not require a password")
      else
        pure encryptedData
  if fileData = [] then
    throw (.Data "Extracted file data is empty")
  pure (fileNameBytes, fileData)

/-- `DataProcessor::decode` from the stego pixel buffer. -/
def decodePipeline (E : Externals) (width height : Nat)
    (image : List (List Nat)) (password : Option (List Nat)) :
    Except DeepSceneError (List Nat × List Nat) := do
  let embedded ← extract_data width height image
  decodePayload E embedded password

/-! ## Concrete instances used by witnesses and the counterexample -/

/-- A concrete instantiation of the external collaborators used by the
witnesses: the identity codec (which satisfies the round-trip laws on
byte-valued inputs), constant key derivation, keystream and hash, and a
UTF-8 validator that accepts everything. -/
def witnessExternals : Externals where
  deflate := fun x => x
  inflate := fun x => some x
  argonKey := fun _ _ => List.replicate 32 7
  keystream := fun _ _ _ => 0
  hash := fun _ => List.replicate 32 9
  validUtf8 := fun _ => true

def witnessSalt : List Nat := List.replicate 16 1

def witnessNonce : List Nat := List.replicate 12 2

def witnessCarrier : List (List Nat) := List.replicate 64 [0, 0, 0, 0]

/-- A deflate model producing a fixed 19-byte output, used to refute C3 as
stated. -/
def counterexampleExternals : Externals :=
  { witnessExternals with deflate := fun _ => List.replicate 19 0 }

/-! ## Basic lemmas about the helpers -/

theorem mapWithIdx_length (f : Nat → α → β) (i : Nat) (l : List α) :
    (mapWithIdx f i l).length = l.length := by
  induction l generalizing i with
  | nil => rfl
  | cons a rest ih => simp [mapWithIdx, ih]

theorem mapWithIdx_getD (f : Nat → α → β) (i k : Nat) (l : List α) (d : α) (e : β)
    (hk : k < l.length) : (mapWithIdx f i l).getD k e = f (i + k) (l.getD k d) := by
  induction l generalizing i k with
  | nil => simp at hk
  | cons a rest ih =>
    cases k with
    | zero => simp [mapWithIdx]
    | succ k =>
      simp only [mapWithIdx, List.getD_cons_succ]
      rw [ih (i + 1) k (by simpa using hk)]
      ring_nf

theorem chanBits_length (l : List (List Nat)) : (chanBits l).length = 3 * l.length := by
  induction l with
  | nil => rfl
  | cons px rest ih => simp [chanBits, ih]; omega

theorem chanBits_getD (l : List (List Nat)) (k : Nat) (hk : k < 3 * l.length) :
    (chanBits l).getD k 0 = (l.getD (k / 3) []).getD (k % 3) 0 &&& 1 := by
  induction l generalizing k with
  | nil => simp at hk
  | cons px rest ih =>
    by_cases h3 : k < 3
    · interval_cases k <;> simp [chanBits]
    · have hk3 : k / 3 = (k - 3) / 3 + 1 := by omega
      have hm3 : k % 3 = (k - 3) % 3 := by omega
      have hrec := ih (k - 3) (by simp at hk; omega)
      have hstep : (chanBits (px :: rest)).getD k 0 = (chanBits rest).getD (k - 3) 0 := by
        simp only [chanBits]
        have : k = (k - 3) + 3 := by omega
        rw [this]
        rfl
      rw [hstep, hrec, hk3, hm3]
      simp

set_option maxRecDepth 10000 in
theorem setLsb_and_one : ∀ v < 256, ∀ b < 2, setLsb v b &&& 1 = b := by decide

set_option maxRecDepth 10000 in
theorem setLsb_div_two : ∀ v < 256, ∀ b < 2, setLsb v b / 2 = v / 2 := by decide

set_option maxRecDepth 10000 in
theorem setLsb_lt : ∀ v < 256, ∀ b < 2, setLsb v b < 256 := by decide

theorem bitAt_lt_two (data : List Nat) (k : Nat) : bitAt data k < 2 :=
  Nat.lt_succ_of_le (Nat.and_le_right)

theorem bitAt_eq (l : List Nat) (i j : Nat) (hj : j < 8) :
    bitAt l (i * 8 + j) = (l.getD i 0 >>> (7 - j)) &&& 1 := by
  have hdiv : (i * 8 + j) / 8 = i := by omega
  have hmod : (i * 8 + j) % 8 = j := by omega
  rw [bitAt, hdiv, hmod]

theorem packFold_congr {f g : Nat → Nat} (h : ∀ j < 8, f j = g j) :
    packFold f = packFold g := by
  have r8 : List.range 8 = [0, 1, 2, 3, 4, 5, 6, 7] := rfl
  simp only [packFold, r8, List.foldl_cons, List.foldl_nil]
  rw [h 0 (by omega), h 1 (by omega), h 2 (by omega), h 3 (by omega),
    h 4 (by omega), h 5 (by omega), h 6 (by omega), h 7 (by omega)]

set_option maxRecDepth 100000 in
theorem packFold_bits : ∀ d < 256, packFold (fun j => (d >>> (7 - j)) &&& 1) = d := by
  decide

theorem xorKeystream_length (ks : Nat → Nat) (i : Nat) (l : List Nat) :
    (xorKeystream ks i l).length = l.length := by
  induction l generalizing i with
  | nil => rfl
  | cons b rest ih => simp [xorKeystream, ih]

theorem xorKeystream_involutive (ks : Nat → Nat) (i : Nat) (l : List Nat) :
    xorKeystream ks i (xorKeystream ks i l) = l := by
  induction l generalizing i with
  | nil => rfl
  | cons b rest ih =>
    simp only [xorKeystream, ih]
    congr 1
    rw [Nat.xor_assoc, Nat.xor_self, Nat.xor_zero]

theorem xorKeystream_mem_lt (ks : Nat → Nat) (i : Nat) (l : List Nat)
    (h : ∀ b ∈ l, b < 256) : ∀ b ∈ xorKeystream ks i l, b < 256 := by
  induction l generalizing i with
  | nil => simp [xorKeystream]
  | cons b rest ih =>
    intro c hc
    simp only [xorKeystream, List.mem_cons] at hc
    rcases hc with hc | hc
    · subst hc
      have h1 : b < 2 ^ 8 := h b (by simp)
      have h2 : ks i % 256 < 2 ^ 8 := Nat.mod_lt _ (by omega)
      exact Nat.xor_lt_two_pow h1 h2
    · exact ih (i + 1) (fun x hx => h x (by simp [hx])) c hc

theorem calculate_header_checksum_lt (l : List Nat) :
    calculate_header_checksum l < 2 ^ 16 := by
  have key : ∀ (l : List Nat) (acc : Nat), acc < 2 ^ 16 →
      l.foldl (fun acc b => (acc + b) % 2 ^ 16) acc < 2 ^ 16 := by
    intro l
    induction l with
    | nil => intro acc h; simpa using h
    | cons b rest ih =>
      intro acc h
      simpa using ih _ (Nat.mod_lt _ (by omega))
  exact key l 0 (by omega)

theorem u16FromBe_bytes (c : Nat) (hc : c < 2 ^ 16) :
    u16FromBe (c / 2 ^ 8 % 256) (c % 256) = c := by
  simp only [u16FromBe]
  omega

theorem u32FromBe_bytes (m : Nat) (hm : m < 2 ^ 32) :
    u32FromBe (m / 2 ^ 24 % 256) (m / 2 ^ 16 % 256) (m / 2 ^ 8 % 256) (m % 256) = m := by
  simp only [u32FromBe]
  omega

theorem buildHeader_length (len : Nat) : (buildHeader len).length = 10 := by
  simp [buildHeader, u32BeBytes, u16BeBytes, HEADER_MAGIC]

theorem buildHeader_mem_lt (len : Nat) : ∀ b ∈ buildHeader len, b < 256 := by
  intro b hb
  simp only [buildHeader, u32BeBytes, u16BeBytes, HEADER_MAGIC, List.mem_append,
    List.mem_cons, List.mem_singleton, List.not_mem_nil, or_false] at hb
  rcases hb with hb | hb <;> rcases hb with hb | hb <;>
    first
    | (subst hb; omega)
    | (rcases hb with hb | hb <;>
        first
        | (subst hb; omega)
        | (rcases hb with hb | hb <;>
            first
            | (subst hb; omega)
            | (rcases hb with hb | hb <;> subst hb <;> omega)))

theorem getD_take_of_lt (l : List Nat) (m k : Nat) (h : k < m) :
    (l.take m).getD k 0 = l.getD k 0 := by
  simp [List.getD, List.getElem?_take, h]

theorem getD_map_range (n : Nat) (f : Nat → Nat) (i : Nat) (h : i < n) :
    ((List.range n).map f).getD i 0 = f i := by
  simp [List.getD, List.getElem?_map, List.getElem?_range, h]

theorem map_range_getD (l : List Nat) :
    (List.range l.length).map (fun i => l.getD i 0) = l := by
  apply List.ext_getElem
  · simp
  · intro n h1 h2
    simp [List.getD, List.getElem?_eq_getElem h2]

theorem getD_mem (l : List Nat) (i : Nat) (h : i < l.length) : l.getD i 0 ∈ l := by
  simp [List.getD, List.getElem?_eq_getElem h]

theorem getD_mem_pixels (l : List (List Nat)) (i : Nat) (h : i < l.length) :
    l.getD i [] ∈ l := by
  simp [List.getD, List.getElem?_eq_getElem h]

/-! ## Capacity arithmetic -/

theorem calculate_capacity_eq (width height : Nat)
    (hw : width ≤ 20000) (hh : height ≤ 20000) :
    calculate_capacity width height = width * height * 3 / 8 := by
  have hlt : width * height * 3 < 2 ^ 64 := by
    have : width * height ≤ 20000 * 20000 := Nat.mul_le_mul hw hh
    nlinarith
  rw [calculate_capacity, Nat.mod_eq_of_lt hlt]

theorem calculate_capacity_le (width height : Nat)
    (hw : width ≤ 20000) (hh : height ≤ 20000) :
    calculate_capacity width height ≤ 150000000 := by
  rw [calculate_capacity_eq width height hw hh]
  have : width * height * 3 ≤ 20000 * 20000 * 3 := by
    have : width * height ≤ 20000 * 20000 := Nat.mul_le_mul hw hh
    omega
  omega

/-! ## Header facts -/

theorem buildHeader_take_four (len : Nat) :
    (buildHeader len).take 4 = HEADER_MAGIC := by
  simp [buildHeader, u32BeBytes, HEADER_MAGIC, List.take]

theorem buildHeader_take_eight (len : Nat) :
    (buildHeader len).take 8 = HEADER_MAGIC ++ u32BeBytes (len % 2 ^ 32) := by
  simp [buildHeader, u32BeBytes, HEADER_MAGIC, List.take]

theorem buildHeader_parsed_checksum (len : Nat) :
    u16FromBe ((buildHeader len).getD 8 0) ((buildHeader len).getD 9 0)
      = calculate_header_checksum (HEADER_MAGIC ++ u32BeBytes (len % 2 ^ 32)) := by
  have hc := calculate_header_checksum_lt (HEADER_MAGIC ++ u32BeBytes (len % 2 ^ 32))
  simp only [buildHeader, u32BeBytes, u16BeBytes, HEADER_MAGIC]
  simp only [List.cons_append, List.nil_append, List.getD_cons_succ, List.getD_cons_zero]
  exact u16FromBe_bytes _ hc

theorem buildHeader_parsed_length (len : Nat) :
    u32FromBe ((buildHeader len).getD 4 0) ((buildHeader len).getD 5 0)
      ((buildHeader len).getD 6 0) ((buildHeader len).getD 7 0) = len % 2 ^ 32 := by
  simp only [buildHeader, u32BeBytes, u16BeBytes, HEADER_MAGIC]
  simp only [List.cons_append, List.nil_append, List.getD_cons_succ, List.getD_cons_zero]
  exact u32FromBe_bytes _ (Nat.mod_lt _ (by norm_num))

/-! ## The embed/extract round trip -/
theorem exceptOkBind (a : α) (f : α → Except DeepSceneError β) :
    (Except.ok a : Except DeepSceneError α) >>= f = f a := rfl

theorem extractPayloadByte_eq (bits : List Nat) (i : Nat)
    (h : 80 + i * 8 + 8 ≤ bits.length) :
    extractPayloadByte bits i = .ok (packFold fun j => bits.getD (80 + i * 8 + j) 0) := by
  have r8 : List.range 8 = [0, 1, 2, 3, 4, 5, 6, 7] := rfl
  have h0 : ¬ (bits.length ≤ 80 + i * 8) := by omega
  have h1 : ¬ (bits.length ≤ 80 + i * 8 + 1) := by omega
  have h2 : ¬ (bits.length ≤ 80 + i * 8 + 2) := by omega
  have h3 : ¬ (bits.length ≤ 80 + i * 8 + 3) := by omega
  have h4 : ¬ (bits.length ≤ 80 + i * 8 + 4) := by omega
  have h5 : ¬ (bits.length ≤ 80 + i * 8 + 5) := by omega
  have h6 : ¬ (bits.length ≤ 80 + i * 8 + 6) := by omega
  have h7 : ¬ (bits.length ≤ 80 + i * 8 + 7) := by omega
  simp [extractPayloadByte, packFold, r8, exceptOkBind, h0, h1, h2, h3, h4, h5, h6, h7,
    pure, Except.pure]

theorem extract_bytes_eq (bits : List Nat) (len : Nat)
    (h : 80 + len * 8 ≤ bits.length) :
    extract_bytes bits len
      = .ok ((List.range len).map fun i => packFold fun j => bits.getD (80 + i * 8 + j) 0) := by
  induction len with
  | zero => rfl
  | succ n ih =>
    have hn : 80 + n * 8 ≤ bits.length := by omega
    simp only [extract_bytes] at ih ⊢
    rw [List.range_succ, List.foldl_append, ih hn]
    simp [List.range_succ, extractPayloadByte_eq bits n (by omega), exceptOkBind, pure,
      Except.pure]

theorem allData_length (final : List Nat) :
    (buildHeader final.length ++ final).length = 10 + final.length := by
  simp [buildHeader_length]

theorem allData_mem_lt (final : List Nat) (hfb : ∀ b ∈ final, b < 256) :
    ∀ b ∈ buildHeader final.length ++ final, b < 256 := by
  intro b hb
  rcases List.mem_append.mp hb with hb | hb
  · exact buildHeader_mem_lt _ b hb
  · exact hfb b hb

theorem headerByteAt_of_bits (bits allData : List Nat) (i : Nat) (hi : i < 10)
    (h10 : 10 ≤ allData.length)
    (hlt : ∀ b ∈ allData, b < 256)
    (hbits : ∀ k < 80, bits.getD k 0 = bitAt allData k) :
    headerByteAt bits i = allData.getD i 0 := by
  have step1 : headerByteAt bits i = packFold fun j => (allData.getD i 0 >>> (7 - j)) &&& 1 := by
    apply packFold_congr
    intro j hj
    rw [hbits (i * 8 + j) (by omega), bitAt_eq allData i j hj]
  rw [step1]
  exact packFold_bits _ (hlt _ (getD_mem allData i (by omega)))

theorem validate_and_extract_embed (w h : Nat) (final bits : List Nat)
    (hfb : ∀ b ∈ final, b < 256)
    (hne : final ≠ [])
    (hmax : final.length ≤ MAX_DATA_LENGTH)
    (havail : 80 + final.length * 8 ≤ w * h * 3)
    (hbits_len : 80 + final.length * 8 ≤ bits.length)
    (hbits : ∀ k < (10 + final.length) * 8,
      bits.getD k 0 = bitAt (buildHeader final.length ++ final) k) :
    validate_and_extract bits w h = .ok final := by
  set L := final.length with hL
  set allData := buildHeader L ++ final with hAD
  have hlen32 : L < 2 ^ 32 := by
    have : MAX_DATA_LENGTH = 256 * 1024 * 1024 := rfl
    omega
  have hADlen : allData.length = 10 + L := allData_length final
  have hADlt : ∀ b ∈ allData, b < 256 := allData_mem_lt final hfb
  have hheader : (List.range 10).map (headerByteAt bits) = buildHeader L := by
    apply List.ext_getElem
    · simp [buildHeader_length]
    · intro n h1 h2
      have hn10 : n < 10 := by simpa using h1
      have e1 : ((List.range 10).map (headerByteAt bits))[n] = headerByteAt bits n := by
        simp
      rw [e1, headerByteAt_of_bits bits allData n hn10 (by omega) hADlt
        (fun k hk => hbits k (by omega))]
      rw [hAD, List.getD_append _ _ _ _ (by simp [buildHeader_length]; omega)]
      simp [List.getD, List.getElem?_eq_getElem h2]
  have hLpos : 0 < L := by
    cases final with
    | nil => exact absurd rfl hne
    | cons a rest => simp [hL]
  have cMagic : ¬((buildHeader L).take 4 ≠ HEADER_MAGIC) := by
    simp [buildHeader_take_four]
  have cChecksum :
      u16FromBe ((buildHeader L).getD 8 0) ((buildHeader L).getD 9 0)
        = calculate_header_checksum ((buildHeader L).take 8) := by
    rw [buildHeader_parsed_checksum, buildHeader_take_eight]
  have cLength :
      u32FromBe ((buildHeader L).getD 4 0) ((buildHeader L).getD 5 0)
        ((buildHeader L).getD 6 0) ((buildHeader L).getD 7 0) = L := by
    rw [buildHeader_parsed_length, Nat.mod_eq_of_lt hlen32]
  have hextract : extract_bytes bits L = .ok final := by
    rw [extract_bytes_eq bits L hbits_len]
    congr 1
    have key : ∀ i < L, (packFold fun j => bits.getD (80 + i * 8 + j) 0) = final.getD i 0 := by
      intro i hi
      have step1 : (packFold fun j => bits.getD (80 + i * 8 + j) 0)
          = packFold fun j => (allData.getD (10 + i) 0 >>> (7 - j)) &&& 1 := by
        apply packFold_congr
        intro j hj
        have hidx : 80 + i * 8 + j = (10 + i) * 8 + j := by ring_nf
        rw [hidx, hbits ((10 + i) * 8 + j) (by omega), bitAt_eq allData (10 + i) j hj]
      rw [step1, packFold_bits _ (hADlt _ (getD_mem allData (10 + i) (by omega)))]
      rw [hAD, List.getD_append_right _ _ _ _ (by simp [buildHeader_length])]
      simp [buildHeader_length]
    calc ((List.range L).map fun i => packFold fun j => bits.getD (80 + i * 8 + j) 0)
        = (List.range L).map fun i => final.getD i 0 := by
          apply List.map_congr_left
          intro i hi
          exact key i (List.mem_range.mp hi)
      _ = final := map_range_getD final
  have eMagic : (buildHeader L).take 4 = HEADER_MAGIC := buildHeader_take_four L
  have hL0 : ¬(L = 0) := by omega
  have hMaxLt : ¬(MAX_DATA_LENGTH < L) := by omega
  have hAvail : ¬(w * h * 3 < 80 + L * 8) := by omega
  have hBitsLen : ¬(bits.length < 80 + L * 8) := by omega
  simp only [List.getD_eq_getElem?_getD] at cChecksum cLength
  simp only [validate_and_extract, hheader]
  simp [eMagic, cChecksum, cLength, hL0, hMaxLt, hAvail, hBitsLen, hextract]

theorem embed_data_length (image : List (List Nat)) (data : List Nat) :
    (embed_data image data).length = image.length := by
  simp [embed_data, mapWithIdx_length]

theorem embed_data_pixel (image : List (List Nat)) (data : List Nat) (i : Nat)
    (hi : i < image.length) :
    (embed_data image data).getD i [] =
      mapWithIdx
        (fun c v =>
          if c < 3 ∧ 3 * i + c < (buildHeader data.length ++ data).length * 8 then
            setLsb v (bitAt (buildHeader data.length ++ data) (3 * i + c))
          else v)
        0 (image.getD i []) := by
  simp only [embed_data]
  rw [mapWithIdx_getD _ 0 i image [] [] hi]
  simp

theorem extract_data_embed (width height : Nat) (image : List (List Nat)) (final : List Nat)
    (himg : image.length = width * height)
    (hpx : ∀ px ∈ image, px.length = 4)
    (hval : ∀ px ∈ image, ∀ v ∈ px, v < 256)
    (hfb : ∀ b ∈ final, b < 256)
    (hne : final ≠ [])
    (hw1 : width ≠ 0) (hw2 : width ≤ 20000)
    (hh1 : height ≠ 0) (hh2 : height ≤ 20000)
    (hcap : final.length + 10 ≤ calculate_capacity width height) :
    extract_data width height (embed_data image final) = .ok final := by
  set L := final.length with hL
  have hcap8 : 80 + L * 8 ≤ width * height * 3 := by
    rw [calculate_capacity_eq width height hw2 hh2] at hcap
    omega
  have hmax : L ≤ MAX_DATA_LENGTH := by
    have := calculate_capacity_le width height hw2 hh2
    simp only [MAX_DATA_LENGTH]
    omega
  set allData := buildHeader L ++ final with hAD
  have hADlen : allData.length = 10 + L := allData_length final
  set stego := embed_data image final with hstego
  have hsl : stego.length = image.length := embed_data_length image final
  set maxBits := min (width * height * 3) (80 + MAX_DATA_LENGTH * 8) with hmb
  set allBits := (chanBits stego).take maxBits with hab
  have habl : allBits.length = maxBits := by
    rw [hab, List.length_take, chanBits_length, hsl, himg]
    omega
  have hbits_agree : ∀ k < (10 + L) * 8, allBits.getD k 0 = bitAt allData k := by
    intro k hk
    have hk80 : k < 80 + L * 8 := by omega
    have hk3i : k < 3 * image.length := by rw [himg]; omega
    have hkm : k < maxBits := by
      have : MAX_DATA_LENGTH * 8 ≥ L * 8 := by omega
      omega
    rw [hab, getD_take_of_lt _ _ _ hkm, chanBits_getD stego k (by rw [hsl]; exact hk3i)]
    have hidx : k / 3 < image.length := by omega
    rw [hstego, embed_data_pixel image final (k / 3) hidx]
    have hpmem := getD_mem_pixels image (k / 3) hidx
    have hplen : (image.getD (k / 3) []).length = 4 := hpx _ hpmem
    rw [mapWithIdx_getD _ 0 (k % 3) _ 0 0 (by rw [hplen]; omega)]
    have h3 : 3 * (k / 3) + k % 3 = k := Nat.div_add_mod k 3
    simp only [Nat.zero_add]
    rw [if_pos]
    · rw [h3]
      exact setLsb_and_one _
        (hval _ hpmem _ (getD_mem _ (k % 3) (by rw [hplen]; omega)))
        _ (bitAt_lt_two allData k)
    · constructor
      · omega
      · rw [h3, ← hAD, hADlen]
        omega
  have hmain : validate_and_extract allBits width height = .ok final :=
    validate_and_extract_embed width height final allBits hfb hne hmax hcap8
      (by rw [habl]; omega) hbits_agree
  have hv1 : ¬(width = 0 ∨ height = 0) := by omega
  have hv2 : ¬(MAX_IMAGE_DIMENSION < width ∨ MAX_IMAGE_DIMENSION < height) := by
    simp only [MAX_IMAGE_DIMENSION]
    omega
  have h80 : ¬(allBits.length < 80) := by rw [habl]; omega
  simp only [extract_data, validateDimensions, hv1, hv2, if_false, exceptOkBind]
  rw [← hmb, ← hab]
  simp [h80, hmain]

/-! ## Crypto round trip and payload parsing -/
theorem encrypt_eq (E : Externals) (salt nonce data pwd : List Nat) (hp : pwd ≠ []) :
    encrypt E salt nonce data pwd
      = .ok (salt ++ nonce ++ xorKeystream (E.keystream (E.argonKey pwd salt) nonce) 0
          ((E.hash data).take 16 ++ data)) := by
  simp [encrypt, hp]

theorem decrypt_encrypt (E : Externals) (salt nonce data pwd : List Nat)
    (hp : pwd ≠ []) (hs : salt.length = 16) (hn : nonce.length = 12)
    (hh : 16 ≤ (E.hash data).length) :
    decrypt E (salt ++ nonce ++ xorKeystream (E.keystream (E.argonKey pwd salt) nonce) 0
      ((E.hash data).take 16 ++ data)) pwd = .ok data := by
  set chk := (E.hash data).take 16 with hchk
  have hchklen : chk.length = 16 := by
    rw [hchk, List.length_take]
    omega
  set enc := xorKeystream (E.keystream (E.argonKey pwd salt) nonce) 0 (chk ++ data) with henc
  have henclen : enc.length = 16 + data.length := by
    rw [henc, xorKeystream_length, List.length_append, hchklen]
  set blob := salt ++ nonce ++ enc with hblob
  have hbloblen : blob.length = 28 + enc.length := by
    rw [hblob]
    simp [hs, hn]
    omega
  have htake16 : blob.take 16 = salt := by
    rw [hblob, List.append_assoc]
    exact List.take_left' hs
  have hdrop16 : blob.drop 16 = nonce ++ enc := by
    rw [hblob, List.append_assoc]
    exact List.drop_left' hs
  have htake12 : (blob.drop 16).take 12 = nonce := by
    rw [hdrop16]
    exact List.take_left' hn
  have hdrop28 : blob.drop 28 = enc := by
    have h1 : (blob.drop 16).drop 12 = blob.drop 28 := List.drop_drop 12 16 blob
    rw [← h1, hdrop16, List.drop_left' hn]
  have hnotlt : ¬(blob.length < 16 + 12 + 16) := by omega
  simp only [decrypt, hp, hnotlt, if_false, if_neg, ite_false]
  rw [htake16, htake12, hdrop28]
  rw [henc, xorKeystream_involutive]
  have hguard : ¬((chk ++ data).length < 16) := by
    simp [hchklen]
  rw [if_neg hguard]
  have hst : (chk ++ data).take 16 = chk := List.take_left' hchklen
  have hac : (chk ++ data).drop 16 = data := List.drop_left' hchklen
  rw [hst, hac, ← hchk]
  simp [hp]

theorem exceptErrorBind (e : DeepSceneError) (f : α → Except DeepSceneError β) :
    (Except.error e : Except DeepSceneError α) >>= f = Except.error e := rfl

theorem payload_getD_zero (name content : List Nat) (fl : Nat) :
    ((name.length :: (name ++ fl :: content) : List Nat)).getD 0 0 = name.length := rfl

theorem payload_length (name content : List Nat) (fl : Nat) :
    ((name.length :: (name ++ fl :: content) : List Nat)).length
      = name.length + content.length + 2 := by
  simp
  omega

theorem payload_fileName (name content : List Nat) (fl : Nat) :
    (((name.length :: (name ++ fl :: content) : List Nat)).drop 1).take name.length = name := by
  simp only [List.drop_succ_cons, List.drop_zero]
  exact List.take_left' rfl

theorem payload_flag (name content : List Nat) (fl : Nat) :
    ((name.length :: (name ++ fl :: content) : List Nat)).getD (1 + name.length) 0 = fl := by
  rw [Nat.add_comm, List.getD_cons_succ]
  rw [List.getD_append_right _ _ _ _ (Nat.le_refl _)]
  simp

theorem payload_content (name content : List Nat) (fl : Nat) :
    ((name.length :: (name ++ fl :: content) : List Nat)).drop (1 + name.length + 1)
      = content := by
  have h : 1 + name.length + 1 = (name.length + 1) + 1 := by omega
  rw [h, List.drop_succ_cons]
  have h1 : (name ++ fl :: content).drop name.length = fl :: content := List.drop_left' rfl
  have h2 : ((name ++ fl :: content).drop name.length).drop 1
      = (name ++ fl :: content).drop (name.length + 1) := List.drop_drop 1 name.length _
  rw [← h2, h1]
  simp

theorem decodePayload_unencrypted_nopwd (E : Externals) (embedded name content : List Nat)
    (fl : Nat)
    (hne : embedded ≠ [])
    (hdec : decompressStage E embedded = .ok (name.length :: (name ++ fl :: content)))
    (hn1 : name ≠ []) (hn255 : name.length ≤ 255)
    (hutf : E.validUtf8 name = true)
    (hnull : ¬ (0 ∈ name))
    (hfl : fl ≠ 1)
    (hcne : content ≠ []) :
    decodePayload E embedded none = .ok (name, content) := by
  have hlen0 : ¬(name.length = 0) := by simpa using hn1
  have h255 : ¬(255 < name.length) := by omega
  have hplen : ¬((name.length :: (name ++ fl :: content) : List Nat)).length
      < 1 + name.length + 1 := by
    rw [payload_length]
    omega
  have hcont : name.contains 0 = false := by simpa using hnull
  have hplen2 : ¬(name.length + (content.length + 1) < 1 + name.length) := by omega
  have hflag2 : ((name.length :: (name ++ fl :: content) : List Nat))[1 + name.length]?.getD 0
      = fl := by
    have h := payload_flag name content fl
    simpa [List.getD_eq_getElem?_getD] using h
  have hdropc : (name ++ fl :: content).drop (1 + name.length) = content := by
    rw [Nat.add_comm]
    have h1 : (name ++ fl :: content).drop name.length = fl :: content := List.drop_left' rfl
    have h2 : ((name ++ fl :: content).drop name.length).drop 1
        = (name ++ fl :: content).drop (name.length + 1) := List.drop_drop 1 name.length _
    rw [← h2, h1]
    simp
  have hclen : ¬(name.length + (content.length + 1) ≤ 1 + name.length) := by
    have : content.length ≠ 0 := by simpa using hcne
    omega
  simp [decodePayload, hne, hdec, exceptOkBind, exceptErrorBind, payload_getD_zero,
    payload_fileName, payload_flag, payload_content, hlen0, h255, hplen, hutf, hn1,
    hcont, hfl, hcne, hplen2, hflag2, hdropc, hclen, hnull,
    pure, Except.pure, throw, throwThe, MonadExceptOf.throw]

theorem decodePayload_unencrypted_pwd (E : Externals) (embedded name content : List Nat)
    (fl : Nat) (p : List Nat)
    (hne : embedded ≠ [])
    (hdec : decompressStage E embedded = .ok (name.length :: (name ++ fl :: content)))
    (hn1 : name ≠ []) (hn255 : name.length ≤ 255)
    (hutf : E.validUtf8 name = true)
    (hnull : ¬ (0 ∈ name))
    (hfl : fl ≠ 1) :
    decodePayload E embedded (some p) = .error (.Validation
      "Password provided for unencrypted file. This file does not require a password") := by
  have hlen0 : ¬(name.length = 0) := by simpa using hn1
  have h255 : ¬(255 < name.length) := by omega
  have hplen2 : ¬(name.length + (content.length + 1) < 1 + name.length) := by omega
  have hflag2 : ((name.length :: (name ++ fl :: content) : List Nat))[1 + name.length]?.getD 0
      = fl := by
    have h := payload_flag name content fl
    simpa [List.getD_eq_getElem?_getD] using h
  simp [decodePayload, hne, hdec, exceptOkBind, exceptErrorBind, payload_getD_zero,
    payload_fileName, hlen0, h255, hutf, hn1, hplen2, hflag2, hnull, hfl,
    pure, Except.pure, throw, throwThe, MonadExceptOf.throw]

theorem decodePayload_encrypted_nopwd (E : Externals) (embedded name content : List Nat)
    (hne : embedded ≠ [])
    (hdec : decompressStage E embedded = .ok (name.length :: (name ++ 1 :: content)))
    (hn1 : name ≠ []) (hn255 : name.length ≤ 255)
    (hutf : E.validUtf8 name = true)
    (hnull : ¬ (0 ∈ name)) :
    decodePayload E embedded none = .error (.Validation
      "File is password-protected. Please provide the decryption password using -p or --password flag") := by
  have hlen0 : ¬(name.length = 0) := by simpa using hn1
  have h255 : ¬(255 < name.length) := by omega
  have hplen2 : ¬(name.length + (content.length + 1) < 1 + name.length) := by omega
  have hflag2 : ((name.length :: (name ++ 1 :: content) : List Nat))[1 + name.length]?.getD 0
      = 1 := by
    have h := payload_flag name content 1
    simpa [List.getD_eq_getElem?_getD] using h
  simp [decodePayload, hne, hdec, exceptOkBind, exceptErrorBind, payload_getD_zero,
    payload_fileName, hlen0, h255, hutf, hn1, hplen2, hflag2, hnull,
    pure, Except.pure, throw, throwThe, MonadExceptOf.throw]

theorem decodePayload_encrypted_ok (E : Externals) (embedded name content d : List Nat)
    (p : List Nat)
    (hne : embedded ≠ [])
    (hdec : decompressStage E embedded = .ok (name.length :: (name ++ 1 :: content)))
    (hn1 : name ≠ []) (hn255 : name.length ≤ 255)
    (hutf : E.validUtf8 name = true)
    (hnull : ¬ (0 ∈ name))
    (hdecr : decrypt E content p = .ok d)
    (hdne : d ≠ []) :
    decodePayload E embedded (some p) = .ok (name, d) := by
  have hlen0 : ¬(name.length = 0) := by simpa using hn1
  have h255 : ¬(255 < name.length) := by omega
  have hplen2 : ¬(name.length + (content.length + 1) < 1 + name.length) := by omega
  have hflag2 : ((name.length :: (name ++ 1 :: content) : List Nat))[1 + name.length]?.getD 0
      = 1 := by
    have h := payload_flag name content 1
    simpa [List.getD_eq_getElem?_getD] using h
  have hdropc : (name ++ 1 :: content).drop (1 + name.length) = content := by
    rw [Nat.add_comm]
    have h1 : (name ++ 1 :: content).drop name.length = 1 :: content := List.drop_left' rfl
    have h2 : ((name ++ 1 :: content).drop name.length).drop 1
        = (name ++ 1 :: content).drop (name.length + 1) := List.drop_drop 1 name.length _
    rw [← h2, h1]
    simp
  simp [decodePayload, hne, hdec, exceptOkBind, exceptErrorBind, payload_getD_zero,
    payload_fileName, hlen0, h255, hutf, hn1, hplen2, hflag2, hnull, hdropc, hdecr, hdne,
    pure, Except.pure, throw, throwThe, MonadExceptOf.throw]

theorem decodePayload_encrypted_err (E : Externals) (embedded name content : List Nat)
    (p : List Nat) (e : DeepSceneError)
    (hne : embedded ≠ [])
    (hdec : decompressStage E embedded = .ok (name.length :: (name ++ 1 :: content)))
    (hn1 : name ≠ []) (hn255 : name.length ≤ 255)
    (hutf : E.validUtf8 name = true)
    (hnull : ¬ (0 ∈ name))
    (hdecr : decrypt E content p = .error e) :
    decodePayload E embedded (some p) = .error e := by
  have hlen0 : ¬(name.length = 0) := by simpa using hn1
  have h255 : ¬(255 < name.length) := by omega
  have hplen2 : ¬(name.length + (content.length + 1) < 1 + name.length) := by omega
  have hflag2 : ((name.length :: (name ++ 1 :: content) : List Nat))[1 + name.length]?.getD 0
      = 1 := by
    have h := payload_flag name content 1
    simpa [List.getD_eq_getElem?_getD] using h
  have hdropc : (name ++ 1 :: content).drop (1 + name.length) = content := by
    rw [Nat.add_comm]
    have h1 : (name ++ 1 :: content).drop name.length = 1 :: content := List.drop_left' rfl
    have h2 : ((name ++ 1 :: content).drop name.length).drop 1
        = (name ++ 1 :: content).drop (name.length + 1) := List.drop_drop 1 name.length _
    rw [← h2, h1]
    simp
  simp [decodePayload, hne, hdec, exceptOkBind, exceptErrorBind, payload_getD_zero,
    payload_fileName, hlen0, h255, hutf, hn1, hplen2, hflag2, hnull, hdropc, hdecr,
    pure, Except.pure, throw, throwThe, MonadExceptOf.throw]

/-! ## Pipeline glue lemmas -/
theorem decompressStage_compress (E : Externals) (payload : List Nat)
    (hinf : E.inflate (E.deflate payload) = some payload) :
    decompressStage E ((if (compress E payload).2 then [1] else [0]) ++ (compress E payload).1)
      = .ok payload := by
  by_cases hc : (E.deflate payload).length < compressThreshold payload.length
  · simp [compress, hc, decompressStage, decompress, hinf]
  · simp [compress, hc, decompressStage, decompress]

theorem finalPayload_ne (E : Externals) (payload : List Nat) :
    (if (compress E payload).2 then [1] else [0]) ++ (compress E payload).1 ≠ [] := by
  by_cases hc : (compress E payload).2 <;> simp [hc]

theorem finalPayload_mem_lt (E : Externals) (payload : List Nat)
    (hd : ∀ b ∈ E.deflate payload, b < 256) (hp : ∀ b ∈ payload, b < 256) :
    ∀ b ∈ (if (compress E payload).2 then [1] else [0]) ++ (compress E payload).1, b < 256 := by
  intro b hb
  rcases List.mem_append.mp hb with hb | hb
  · by_cases hc : (compress E payload).2 <;> simp [hc] at hb <;> omega
  · by_cases hc : (E.deflate payload).length < compressThreshold payload.length
    · rw [show (compress E payload).1 = E.deflate payload by simp [compress, hc]] at hb
      exact hd b hb
    · rw [show (compress E payload).1 = payload by simp [compress, hc]] at hb
      exact hp b hb

theorem buildOuterPayload_none (E : Externals) (salt nonce fileData fileName : List Nat)
    (hn255 : fileName.length ≤ 255) :
    buildOuterPayload E salt nonce fileData fileName none
      = .ok (fileName.length :: (fileName ++ 0 :: fileData)) := by
  simp [buildOuterPayload, pure, Except.pure, exceptOkBind,
    Nat.mod_eq_of_lt (by omega : fileName.length < 256)]

theorem buildOuterPayload_some (E : Externals) (salt nonce fileData fileName pwd : List Nat)
    (hn255 : fileName.length ≤ 255) (hp : pwd ≠ []) :
    buildOuterPayload E salt nonce fileData fileName (some pwd)
      = .ok (fileName.length :: (fileName ++ 1 ::
          (salt ++ nonce ++ xorKeystream (E.keystream (E.argonKey pwd salt) nonce) 0
            ((E.hash fileData).take 16 ++ fileData)))) := by
  simp [buildOuterPayload, encrypt_eq E salt nonce fileData pwd hp, exceptOkBind, pure,
    Except.pure, Nat.mod_eq_of_lt (by omega : fileName.length < 256)]

theorem hide_data_ok_inv (w h : Nat) (image : List (List Nat)) (data : List Nat)
    (stego : List (List Nat)) (hok : hide_data w h image data = .ok stego) :
    w ≠ 0 ∧ h ≠ 0 ∧ w ≤ 20000 ∧ h ≤ 20000
      ∧ data.length + 10 ≤ calculate_capacity w h ∧ stego = embed_data image data := by
  by_cases h1 : w = 0 ∨ h = 0
  · simp [hide_data, validateDimensions, h1, exceptErrorBind] at hok
  by_cases h2 : MAX_IMAGE_DIMENSION < w ∨ MAX_IMAGE_DIMENSION < h
  · simp [hide_data, validateDimensions, h1, h2, exceptErrorBind] at hok
  by_cases h3 : calculate_capacity w h < data.length + 10
  · simp [hide_data, validateDimensions, h1, h2, h3, exceptOkBind, exceptErrorBind] at hok
  · simp only [hide_data, validateDimensions, h1, h2, h3, if_false, exceptOkBind,
      ite_false] at hok
    simp only [MAX_IMAGE_DIMENSION, not_or] at h1 h2
    refine ⟨h1.1, h1.2, by omega, by omega, by omega, ?_⟩
    exact (Except.ok.inj hok).symm

theorem decrypt_error_isEncryption (E : Externals) (data pwd : List Nat) (e : DeepSceneError)
    (hp : pwd ≠ []) (h : decrypt E data pwd = .error e) : e.isEncryption = true := by
  simp only [decrypt] at h
  rw [if_neg hp] at h
  split_ifs at h
  all_goals simp only [Except.error.injEq] at h
  all_goals subst h
  all_goals rfl

/-! ## The claims -/

/-- C1: whole-pipeline round trip.  For every non-empty byte sequence
`fileData` of at most 256 MiB, every 1-to-255-byte null-free (UTF-8 valid)
filename, and every valid carrier whose capacity is large enough for the
framed payload — witnessed by `encodePipeline` succeeding — decoding the
encoded image returns exactly the original filename and bytes, both with
`password = none` and ``password = some p`` (`p` non-empty), whether or not
the payload is compressible (the deflate model is arbitrary subject to
byte-valued output and invertibility). -/
theorem C1_pipeline_round_trip (E : Externals) (salt nonce : List Nat) (width height : Nat)
    (image : List (List Nat)) (fileData fileName : List Nat) (password : Option (List Nat))
    (stego : List (List Nat))
    (himg : image.length = width * height)
    (hpx : ∀ px ∈ image, px.length = 4)
    (hvb : ∀ px ∈ image, ∀ b ∈ px, b < 256)
    (hfd_ne : fileData ≠ [])
    (hfd_lt : ∀ b ∈ fileData, b < 256)
    (hfd_max : fileData.length ≤ MAX_DATA_LENGTH)
    (hn_ne : fileName ≠ []) (hn255 : fileName.length ≤ 255)
    (hn_lt : ∀ b ∈ fileName, b < 256)
    (hn_null : ¬ 0 ∈ fileName)
    (hutf : E.validUtf8 fileName = true)
    (hpw : ∀ p, password = some p → p ≠ [])
    (hsalt : salt.length = 16) (hnonce : nonce.length = 12)
    (hsalt_lt : ∀ b ∈ salt, b < 256) (hnonce_lt : ∀ b ∈ nonce, b < 256)
    (hhash_len : ∀ d, 16 ≤ (E.hash d).length)
    (hhash_lt : ∀ d, ∀ b ∈ E.hash d, b < 256)
    (hdef_lt : ∀ d, (∀ b ∈ d, b < 256) → ∀ b ∈ E.deflate d, b < 256)
    (hinf : ∀ d, (∀ b ∈ d, b < 256) → E.inflate (E.deflate d) = some d)
    (henc : encodePipeline E salt nonce width height image fileData fileName password
      = .ok stego) :
    decodePipeline E width height stego password = .ok (fileName, fileData) := by
  cases password with
  | none =>
    have hpay := buildOuterPayload_none E salt nonce fileData fileName hn255
    simp only [encodePipeline, hpay, exceptOkBind] at henc
    have hP_lt : ∀ b ∈ (fileName.length :: (fileName ++ 0 :: fileData) : List Nat),
        b < 256 := by
      intro b hb
      rcases List.mem_cons.mp hb with hb | hb
      · omega
      rcases List.mem_append.mp hb with hb | hb
      · exact hn_lt b hb
      rcases List.mem_cons.mp hb with hb | hb
      · omega
      exact hfd_lt b hb
    obtain ⟨hw0, hh0, hw2, hh2, hcap, hstego⟩ := hide_data_ok_inv _ _ _ _ _ henc
    have hfin_lt := finalPayload_mem_lt E (fileName.length :: (fileName ++ 0 :: fileData))
      (hdef_lt _ hP_lt) hP_lt
    have hfin_ne := finalPayload_ne E (fileName.length :: (fileName ++ 0 :: fileData))
    have hext : extract_data width height stego
        = .ok ((if (compress E (fileName.length :: (fileName ++ 0 :: fileData))).2
            then [1] else [0])
          ++ (compress E (fileName.length :: (fileName ++ 0 :: fileData))).1) := by
      rw [hstego]
      exact extract_data_embed width height image _ himg hpx hvb hfin_lt hfin_ne
        hw0 hw2 hh0 hh2 hcap
    simp only [decodePipeline, hext, exceptOkBind]
    exact decodePayload_unencrypted_nopwd E _ fileName fileData 0 hfin_ne
      (decompressStage_compress E _ (hinf _ hP_lt)) hn_ne hn255 hutf hn_null (by omega)
      hfd_ne
  | some pwd =>
    have hp : pwd ≠ [] := hpw pwd rfl
    have hpay := buildOuterPayload_some E salt nonce fileData fileName pwd hn255 hp
    simp only [encodePipeline, hpay, exceptOkBind] at henc
    have hP_lt : ∀ b ∈ (fileName.length :: (fileName ++ 1 ::
        (salt ++ nonce ++ xorKeystream (E.keystream (E.argonKey pwd salt) nonce) 0
          ((E.hash fileData).take 16 ++ fileData))) : List Nat), b < 256 := by
      intro b hb
      rcases List.mem_cons.mp hb with hb | hb
      · omega
      rcases List.mem_append.mp hb with hb | hb
      · exact hn_lt b hb
      rcases List.mem_cons.mp hb with hb | hb
      · omega
      rcases List.mem_append.mp hb with hb | hb
      · rcases List.mem_append.mp hb with hb | hb
        · exact hsalt_lt b hb
        · exact hnonce_lt b hb
      refine xorKeystream_mem_lt _ _ _ ?_ b hb
      intro c hc
      rcases List.mem_append.mp hc with hc | hc
      · exact hhash_lt fileData c (List.take_subset _ _ hc)
      · exact hfd_lt c hc
    obtain ⟨hw0, hh0, hw2, hh2, hcap, hstego⟩ := hide_data_ok_inv _ _ _ _ _ henc
    have hfin_lt := finalPayload_mem_lt E (fileName.length :: (fileName ++ 1 ::
      (salt ++ nonce ++ xorKeystream (E.keystream (E.argonKey pwd salt) nonce) 0
        ((E.hash fileData).take 16 ++ fileData)))) (hdef_lt _ hP_lt) hP_lt
    have hfin_ne := finalPayload_ne E (fileName.length :: (fileName ++ 1 ::
      (salt ++ nonce ++ xorKeystream (E.keystream (E.argonKey pwd salt) nonce) 0
        ((E.hash fileData).take 16 ++ fileData))))
    have hext : extract_data width height stego
        = .ok ((if (compress E (fileName.length :: (fileName ++ 1 ::
              (salt ++ nonce ++ xorKeystream (E.keystream (E.argonKey pwd salt) nonce) 0
                ((E.hash fileData).take 16 ++ fileData))))).2
            then [1] else [0])
          ++ (compress E (fileName.length :: (fileName ++ 1 ::
              (salt ++ nonce ++ xorKeystream (E.keystream (E.argonKey pwd salt) nonce) 0
                ((E.hash fileData).take 16 ++ fileData))))).1) := by
      rw [hstego]
      exact extract_data_embed width height image _ himg hpx hvb hfin_lt hfin_ne
        hw0 hw2 hh0 hh2 hcap
    simp only [decodePipeline, hext, exceptOkBind]
    exact decodePayload_encrypted_ok E _ fileName
      (salt ++ nonce ++ xorKeystream (E.keystream (E.argonKey pwd salt) nonce) 0
        ((E.hash fileData).take 16 ++ fileData)) fileData pwd hfin_ne
      (decompressStage_compress E _ (hinf _ hP_lt)) hn_ne hn255 hutf hn_null
      (decrypt_encrypt E salt nonce fileData pwd hp hsalt hnonce (hhash_len fileData))
      hfd_ne

/-- C1 witness: a concrete 8-by-8 carrier, the file `[5]` named `"a"`,
no password. -/
theorem C1_witness :
    decodePipeline witnessExternals 8 8
      (embed_data witnessCarrier [0, 1, 97, 0, 5]) none = .ok ([97], [5]) :=
  C1_pipeline_round_trip witnessExternals witnessSalt witnessNonce 8 8 witnessCarrier
    [5] [97] none (embed_data witnessCarrier [0, 1, 97, 0, 5])
    (by decide) (by decide) (by decide) (by decide) (by decide) (by decide)
    (by decide) (by decide) (by decide) (by decide)
    rfl
    (by intro p h; cases h)
    (by decide) (by decide) (by decide) (by decide)
    (fun d => by simp [witnessExternals])
    (fun d b hb => by
      have h9 : b = 9 := by simpa [witnessExternals] using hb
      omega)
    (fun d hd => hd)
    (fun d hd => rfl)
    rfl

/-- C2: capacity boundary of `hide_data`.  For every payload and every valid
carrier (dimensions in `[1, 20000]`), `hide_data` succeeds iff
`len(payload) + 10 ≤ capacity(w, h)`; one byte over, it fails with the
Validation error reporting the maximum holdable bytes (`capacity - 10`,
saturating) and suggesting the minimum square dimension
`ceil(sqrt(ceil((len + 10) * 8 / 3)))`. -/
theorem C2_hide_data_capacity (width height : Nat) (image : List (List Nat))
    (data : List Nat)
    (hw1 : 1 ≤ width) (hw2 : width ≤ 20000) (hh1 : 1 ≤ height) (hh2 : height ≤ 20000) :
    ((∃ out, hide_data width height image data = .ok out)
      ↔ data.length + 10 ≤ calculate_capacity width height)
    ∧ (calculate_capacity width height < data.length + 10 →
        hide_data width height image data = .error (.Validation
          (capacityErrorMsg (calculate_capacity width height - 10) data.length
            (ceilSqrt (ceilDiv ((data.length + 10) * 8) 3))))) := by
  have hv1 : ¬(width = 0 ∨ height = 0) := by omega
  have hv2 : ¬(MAX_IMAGE_DIMENSION < width ∨ MAX_IMAGE_DIMENSION < height) := by
    simp only [MAX_IMAGE_DIMENSION]
    omega
  constructor
  · constructor
    · rintro ⟨out, hout⟩
      obtain ⟨_, _, _, _, hcap, _⟩ := hide_data_ok_inv _ _ _ _ _ hout
      exact hcap
    · intro hcap
      have h3 : ¬(calculate_capacity width height < data.length + 10) := by omega
      exact ⟨embed_data image data,
        by simp [hide_data, validateDimensions, hv1, hv2, h3, exceptOkBind]⟩
  · intro hlt
    simp [hide_data, validateDimensions, hv1, hv2, hlt, exceptOkBind, minDimension]

/-- C2 witness: an 8-by-8 carrier (capacity 24) with a 15-byte payload,
which is exactly one byte over the boundary. -/
theorem C2_witness :
    ((∃ out, hide_data 8 8 witnessCarrier (List.replicate 15 0) = .ok out)
      ↔ (List.replicate 15 0 : List Nat).length + 10 ≤ calculate_capacity 8 8)
    ∧ (calculate_capacity 8 8 < (List.replicate 15 0 : List Nat).length + 10 →
        hide_data 8 8 witnessCarrier (List.replicate 15 0) = .error (.Validation
          (capacityErrorMsg (calculate_capacity 8 8 - 10)
            (List.replicate 15 0 : List Nat).length
            (ceilSqrt (ceilDiv (((List.replicate 15 0 : List Nat).length + 10) * 8) 3))))) :=
  C2_hide_data_capacity 8 8 witnessCarrier (List.replicate 15 0)
    (by decide) (by decide) (by decide) (by decide)

/-- C3 counterexample: with a 21-byte input whose compressed form is
19 bytes, the compressed size is strictly below 95 percent of the original
(`20 * 19 = 380 < 399 = 19 * 21`), yet `compress` does NOT apply
compression, because the source truncates the threshold
(`(21 as f64 * 0.95) as usize = 19`) and compares with strict `<`. -/
theorem C3_counterexample :
    ¬(((compress counterexampleExternals (List.replicate 21 0)).2 = true)
        ↔ 20 * (counterexampleExternals.deflate (List.replicate 21 0)).length
            < 19 * (List.replicate 21 0 : List Nat).length) := by
  decide

/-- C3 amended: `compress` returns the deflated bytes with `applied = true`
iff the compressed size is strictly below the truncated threshold
`⌊0.95 * len(d)⌋` (the integer the source's `(len as f64 * 0.95) as usize`
computes); otherwise it returns the original bytes with `applied = false`.
In particular a compressed size of exactly 95 percent of the original is
NOT compressed. -/
theorem C3_compress_threshold (E : Externals) (data : List Nat) :
    ((compress E data).2 = true ↔ (E.deflate data).length < 19 * data.length / 20)
    ∧ ((compress E data).2 = true → (compress E data).1 = E.deflate data)
    ∧ ((compress E data).2 = false → (compress E data).1 = data)
    ∧ (20 * (E.deflate data).length = 19 * data.length → (compress E data).2 = false) := by
  unfold compress compressThreshold
  by_cases hc : (E.deflate data).length < 19 * data.length / 20 <;> simp [hc] <;> omega

/-- C4: crypto round trip.  For every byte sequence, non-empty password,
16-byte salt and 12-byte nonce, `encrypt` produces
`salt ++ nonce ++ keystream-XOR(16-byte truncated hash ++ data)` and
`decrypt` of that blob with the same password returns exactly the data. -/
theorem C4_crypto_round_trip (E : Externals) (salt nonce data pwd : List Nat)
    (hp : pwd ≠ []) (hs : salt.length = 16) (hn : nonce.length = 12)
    (hh : 16 ≤ (E.hash data).length) :
    ∃ blob, encrypt E salt nonce data pwd = .ok blob
      ∧ blob = salt ++ nonce ++ xorKeystream (E.keystream (E.argonKey pwd salt) nonce) 0
          ((E.hash data).take 16 ++ data)
      ∧ decrypt E blob pwd = .ok data :=
  ⟨_, encrypt_eq E salt nonce data pwd hp, rfl,
    decrypt_encrypt E salt nonce data pwd hp hs hn hh⟩

/-- C4 witness: concrete salt, nonce, 2-byte data and 1-byte password. -/
theorem C4_witness :
    ∃ blob, encrypt witnessExternals witnessSalt witnessNonce [5, 6] [112] = .ok blob
      ∧ blob = witnessSalt ++ witnessNonce
          ++ xorKeystream
            (witnessExternals.keystream (witnessExternals.argonKey [112] witnessSalt)
              witnessNonce) 0
            ((witnessExternals.hash [5, 6]).take 16 ++ [5, 6])
      ∧ decrypt witnessExternals blob [112] = .ok [5, 6] :=
  C4_crypto_round_trip witnessExternals witnessSalt witnessNonce [5, 6] [112]
    (by decide) (by decide) (by decide) (by decide)

/-- C8: capacity arithmetic.  For dimensions at most 20000 the 64-bit
computation never wraps, so `calculate_capacity` is exactly
`⌊w * h * 3 / 8⌋`; in particular `capacity(100, 100) = 3750`. -/
theorem C8_capacity_arithmetic (width height : Nat)
    (hw : width ≤ 20000) (hh : height ≤ 20000) :
    calculate_capacity width height = width * height * 3 / 8
      ∧ calculate_capacity 100 100 = 3750 :=
  ⟨calculate_capacity_eq width height hw hh, by decide⟩

/-- C8 witness at the 100-by-100 example. -/
theorem C8_witness :
    calculate_capacity 100 100 = 100 * 100 * 3 / 8 ∧ calculate_capacity 100 100 = 3750 :=
  C8_capacity_arithmetic 100 100 (by decide) (by decide)

/-- C10: whenever the caller's check `80 + length * 8 ≤ bits.length` holds
(as `validate_and_extract` guarantees before calling), `extract_bytes`
returns `Except.ok` with exactly `length` bytes — the out-of-range branch is
unreachable. -/
theorem C10_extract_bytes_total (bits : List Nat) (len : Nat)
    (h : 80 + len * 8 ≤ bits.length) :
    ∃ data, extract_bytes bits len = .ok data ∧ data.length = len := by
  refine ⟨_, extract_bytes_eq bits len h, ?_⟩
  simp

/-- C10 witness: 88 zero bits suffice for one payload byte. -/
theorem C10_witness :
    ∃ data, extract_bytes (List.replicate 88 0) 1 = .ok data ∧ data.length = 1 :=
  C10_extract_bytes_total (List.replicate 88 0) 1 (by decide)

/-- C9: once the minimum-length check of `decrypt` passes
(`blob.length ≥ 44`), the decrypted buffer has length `blob.length - 28 ≥ 16`,
so the "plaintext shorter than 16 bytes" branch is unreachable: `decrypt`
coincides with `decryptNoLengthGuard`, whose only "Authentication failed"
error is the checksum mismatch. -/
theorem C9_length_guard_unreachable (E : Externals) (data pwd : List Nat)
    (h44 : 44 ≤ data.length) :
    16 ≤ (xorKeystream
        (E.keystream (E.argonKey pwd (data.take 16)) ((data.drop 16).take 12)) 0
        (data.drop 28)).length
    ∧ decrypt E data pwd = decryptNoLengthGuard E data pwd := by
  have hlen : (xorKeystream
      (E.keystream (E.argonKey pwd (data.take 16)) ((data.drop 16).take 12)) 0
      (data.drop 28)).length = data.length - 28 := by
    rw [xorKeystream_length, List.length_drop]
  constructor
  · omega
  · by_cases hp : pwd = []
    · simp [decrypt, decryptNoLengthGuard, hp]
    · have hguard : ¬((xorKeystream
          (E.keystream (E.argonKey pwd (data.take 16)) ((data.drop 16).take 12)) 0
          (data.drop 28)).length < 16) := by omega
      simp only [decrypt, decryptNoLengthGuard, hp, if_false, ite_false, hguard]

/-- C9 witness at a concrete 44-byte blob. -/
theorem C9_witness :
    16 ≤ (xorKeystream
        (witnessExternals.keystream
          (witnessExternals.argonKey [112] ((List.replicate 44 0 : List Nat).take 16))
          (((List.replicate 44 0 : List Nat).drop 16).take 12)) 0
        ((List.replicate 44 0 : List Nat).drop 28)).length
    ∧ decrypt witnessExternals (List.replicate 44 0) [112]
        = decryptNoLengthGuard witnessExternals (List.replicate 44 0) [112] :=
  C9_length_guard_unreachable witnessExternals (List.replicate 44 0) [112] (by decide)

/-- C6: flag/password consistency of `decode`.  For a parsed stego payload:
an unencrypted flag with a password supplied fails with the Validation error;
an encrypted flag with no password fails with the Validation error (returned
by the `match` before `decrypt` is ever invoked); an encrypted flag with a
password whose decryption fails (as a wrong password does, via the checksum)
propagates that failure, which is always an `Encryption`-kind error. -/
theorem C6_flag_password_consistency (E : Externals) (embedded name content : List Nat)
    (fl : Nat) (p : List Nat) (e : DeepSceneError)
    (hne : embedded ≠ [])
    (hn_ne : name ≠ []) (hn255 : name.length ≤ 255)
    (hutf : E.validUtf8 name = true) (hnull : ¬ 0 ∈ name) :
    (decompressStage E embedded = .ok (name.length :: (name ++ fl :: content)) → fl ≠ 1 →
        decodePayload E embedded (some p) = .error (.Validation
          "Password provided for unencrypted file. This file does not require a password"))
    ∧ (decompressStage E embedded = .ok (name.length :: (name ++ 1 :: content)) →
        decodePayload E embedded none = .error (.Validation
          "File is password-protected. Please provide the decryption password using -p or --password flag"))
    ∧ (decompressStage E embedded = .ok (name.length :: (name ++ 1 :: content)) →
        p ≠ [] → decrypt E content p = .error e →
          decodePayload E embedded (some p) = .error e ∧ e.isEncryption = true) :=
  ⟨fun hdec hfl =>
      decodePayload_unencrypted_pwd E embedded name content fl p hne hdec hn_ne hn255
        hutf hnull hfl,
    fun hdec =>
      decodePayload_encrypted_nopwd E embedded name content hne hdec hn_ne hn255
        hutf hnull,
    fun hdec hp hdecr =>
      ⟨decodePayload_encrypted_err E embedded name content p e hne hdec hn_ne hn255
          hutf hnull hdecr,
        decrypt_error_isEncryption E content p e hp hdecr⟩⟩

/-- C6 witness: a payload flagged encrypted decoded without a password and
with a wrong password, and a payload flagged unencrypted decoded with a
password. -/
theorem C6_witness :
    decodePayload witnessExternals ([0, 1, 97, 1] ++ List.replicate 44 0) none
        = .error (.Validation
          "File is password-protected. Please provide the decryption password using -p or --password flag")
    ∧ decodePayload witnessExternals ([0, 1, 97, 1] ++ List.replicate 44 0) (some [113])
        = .error (.Encryption "Authentication failed")
    ∧ decodePayload witnessExternals [0, 1, 97, 0, 5] (some [113])
        = .error (.Validation
          "Password provided for unencrypted file. This file does not require a password") :=
  ⟨(C6_flag_password_consistency witnessExternals ([0, 1, 97, 1] ++ List.replicate 44 0)
      [97] (List.replicate 44 0) 1 [113] (.Encryption "Authentication failed")
      (by decide) (by decide) (by decide) rfl (by decide)).2.1 (by rfl),
    ((C6_flag_password_consistency witnessExternals ([0, 1, 97, 1] ++ List.replicate 44 0)
      [97] (List.replicate 44 0) 1 [113] (.Encryption "Authentication failed")
      (by decide) (by decide) (by decide) rfl (by decide)).2.2 (by rfl) (by decide) (by rfl)).1,
    (C6_flag_password_consistency witnessExternals [0, 1, 97, 0, 5]
      [97] [5] 0 [113] (.Encryption "Authentication failed")
      (by decide) (by decide) (by decide) rfl (by decide)).1 (by rfl) (by decide)⟩

/-- C7: frame property of `embed_data`.  The pixel count is preserved; for
every pixel the alpha channel (index 3) is untouched; every colour channel
keeps its seven higher bits (`value / 2` unchanged); channel `c` of pixel `i`
(row-major, channels R,G,B) receives data bit `3 * i + c` in its
least-significant bit while `3 * i + c` is below the total bit count, and is
left completely unchanged from there on. -/
theorem C7_embed_frame (image : List (List Nat)) (data : List Nat)
    (hfit : (buildHeader data.length ++ data).length * 8 ≤ 3 * image.length)
    (hpx : ∀ px ∈ image, px.length = 4)
    (hvb : ∀ px ∈ image, ∀ b ∈ px, b < 256) :
    (embed_data image data).length = image.length
    ∧ ∀ i, i < image.length →
        ((embed_data image data).getD i []).length = 4
        ∧ ((embed_data image data).getD i []).getD 3 0 = (image.getD i []).getD 3 0
        ∧ ∀ c, c < 3 →
            ((embed_data image data).getD i []).getD c 0 / 2
              = (image.getD i []).getD c 0 / 2
            ∧ (3 * i + c < (buildHeader data.length ++ data).length * 8 →
                ((embed_data image data).getD i []).getD c 0
                  = setLsb ((image.getD i []).getD c 0)
                      (bitAt (buildHeader data.length ++ data) (3 * i + c)))
            ∧ ((buildHeader data.length ++ data).length * 8 ≤ 3 * i + c →
                ((embed_data image data).getD i []).getD c 0
                  = (image.getD i []).getD c 0) := by
  refine ⟨embed_data_length image data, ?_⟩
  intro i hi
  have hpmem := getD_mem_pixels image i hi
  have hplen : (image.getD i []).length = 4 := hpx _ hpmem
  rw [embed_data_pixel image data i hi]
  refine ⟨?_, ?_, ?_⟩
  · rw [mapWithIdx_length, hplen]
  · rw [mapWithIdx_getD _ 0 3 _ 0 0 (by omega)]
    simp
  · intro c hc
    rw [mapWithIdx_getD _ 0 c _ 0 0 (by omega)]
    simp only [Nat.zero_add]
    have hv : (image.getD i []).getD c 0 < 256 := hvb _ hpmem _ (getD_mem _ c (by omega))
    by_cases hcond : 3 * i + c < (buildHeader data.length ++ data).length * 8
    · rw [if_pos ⟨hc, hcond⟩]
      exact ⟨setLsb_div_two _ hv _ (bitAt_lt_two _ _), fun _ => rfl,
        fun hge => absurd hcond (by omega)⟩
    · rw [if_neg (by tauto)]
      exact ⟨rfl, fun hlt => absurd hlt hcond, fun _ => rfl⟩

/-- C7 witness on the concrete 8-by-8 carrier and the 1-byte payload. -/
theorem C7_witness :
    (embed_data witnessCarrier [5]).length = witnessCarrier.length
    ∧ ∀ i, i < witnessCarrier.length →
        ((embed_data witnessCarrier [5]).getD i []).length = 4
        ∧ ((embed_data witnessCarrier [5]).getD i []).getD 3 0
            = (witnessCarrier.getD i []).getD 3 0
        ∧ ∀ c, c < 3 →
            ((embed_data witnessCarrier [5]).getD i []).getD c 0 / 2
              = (witnessCarrier.getD i []).getD c 0 / 2
            ∧ (3 * i + c < (buildHeader ([5] : List Nat).length ++ [5]).length * 8 →
                ((embed_data witnessCarrier [5]).getD i []).getD c 0
                  = setLsb ((witnessCarrier.getD i []).getD c 0)
                      (bitAt (buildHeader ([5] : List Nat).length ++ [5]) (3 * i + c)))
            ∧ ((buildHeader ([5] : List Nat).length ++ [5]).length * 8 ≤ 3 * i + c →
                ((embed_data witnessCarrier [5]).getD i []).getD c 0
                  = (witnessCarrier.getD i []).getD c 0) :=
  C7_embed_frame witnessCarrier [5] (by decide) (by decide) (by decide)

/-- C5: the six validation steps of `validate_and_extract`, in source
order: wrong magic, checksum mismatch, zero length, length over the 256 MiB
cap, `80 + length * 8` over the image's theoretical bit budget, and over the
number of bits actually collected — each with its exact `Data` error. -/
theorem C5_header_validation (bits : List Nat) (width height : Nat)
    (h80 : 80 ≤ bits.length) :
    ((headerBytes bits).take 4 ≠ HEADER_MAGIC →
        validate_and_extract bits width height = .error (.Data
          "No embedded data detected. This image does not appear to contain steganographic content"))
    ∧ ((headerBytes bits).take 4 = HEADER_MAGIC →
        storedChecksumOf bits ≠ computedChecksumOf bits →
        validate_and_extract bits width height = .error (.Data
          "Data integrity check failed. The embedded data may be corrupted"))
    ∧ ((headerBytes bits).take 4 = HEADER_MAGIC →
        storedChecksumOf bits = computedChecksumOf bits →
        dataLengthOf bits = 0 →
        validate_and_extract bits width height
          = .error (.Data "No embedded data detected"))
    ∧ ((headerBytes bits).take 4 = HEADER_MAGIC →
        storedChecksumOf bits = computedChecksumOf bits →
        dataLengthOf bits ≠ 0 →
        MAX_DATA_LENGTH < dataLengthOf bits →
        validate_and_extract bits width height = .error (.Data
          ("Invalid data length detected (" ++ toString (dataLengthOf bits)
            ++ " bytes). Maximum is " ++ toString (MAX_DATA_LENGTH / (1024 * 1024))
            ++ " MB.")))
    ∧ ((headerBytes bits).take 4 = HEADER_MAGIC →
        storedChecksumOf bits = computedChecksumOf bits →
        dataLengthOf bits ≠ 0 →
        dataLengthOf bits ≤ MAX_DATA_LENGTH →
        width * height * 3 < 80 + dataLengthOf bits * 8 →
        validate_and_extract bits width height = .error (.Data
          ("Image capacity exceeded. Required: " ++ toString (80 + dataLengthOf bits * 8)
            ++ " bits. Available: " ++ toString (width * height * 3) ++ " bits")))
    ∧ ((headerBytes bits).take 4 = HEADER_MAGIC →
        storedChecksumOf bits = computedChecksumOf bits →
        dataLengthOf bits ≠ 0 →
        dataLengthOf bits ≤ MAX_DATA_LENGTH →
        80 + dataLengthOf bits * 8 ≤ width * height * 3 →
        bits.length < 80 + dataLengthOf bits * 8 →
        validate_and_extract bits width height = .error (.Data
          ("Cannot extract data: need " ++ toString (80 + dataLengthOf bits * 8)
            ++ " bits but only " ++ toString bits.length ++ " bits available"))) := by
  simp only [headerBytes, storedChecksumOf, computedChecksumOf, dataLengthOf]
  simp only [validate_and_extract]
  refine ⟨?_, ?_, ?_, ?_, ?_, ?_⟩
  · intro h1
    rw [if_pos h1]
  · intro h1 h2
    rw [if_neg (fun hne => hne h1), if_pos h2]
  · intro h1 h2 h3
    rw [if_neg (fun hne => hne h1), if_neg (fun hne => hne h2), if_pos h3]
  · intro h1 h2 h3 h4
    rw [if_neg (fun hne => hne h1), if_neg (fun hne => hne h2), if_neg h3, if_pos h4]
  · intro h1 h2 h3 h4 h5
    rw [if_neg (fun hne => hne h1), if_neg (fun hne => hne h2), if_neg h3,
      if_neg (by omega), if_pos h5]
  · intro h1 h2 h3 h4 h5 h6
    rw [if_neg (fun hne => hne h1), if_neg (fun hne => hne h2), if_neg h3,
      if_neg (by omega), if_neg (by omega), if_pos h6]

/-- C5 witness: 80 zero bits have the wrong magic. -/
theorem C5_witness :
    validate_and_extract (List.replicate 80 0) 10 10 = .error (.Data
      "No embedded data detected. This image does not appear to contain steganographic content") :=
  (C5_header_validation (List.replicate 80 0) 10 10 (by decide)).1 (by decide)

end DeepScene
